import Mathlib

/-!
Shallow embedding of the user-resolution subsystem of `jx-changelog`
(`pkg/users/resolver.go`).

The resolver's external collaborators — the platform user directory
(`GitProvider.Users.FindLogin`), the user cache (`UserDetailService` with
`GetUser` / `CreateOrUpdateUser`), the not-found classifier
(`scmhelpers.IsScmNotFound`) and the name sanitizer (`naming.ToValidName`)
— are not part of this repository.  They are modelled as an explicit
capability record `Caps`, and the cache as an association list threaded
through each call.  `Resolve` additionally records, for verification, the
logins it queried on the platform and the records it handed to the cache
writer, so that claims of the form "the platform is not invoked" and
"the cache is not written" are directly statable.
-/

namespace Users

/-- A Go error value as the resolver observes it: its message plus whether
`scmhelpers.IsScmNotFound` classifies it as a not-found condition. -/
structure GoError where
  msg : String
  notFound : Bool
deriving DecidableEq

/-- Model of `errors.Wrapf(err, msgfmt, ...)` from `github.com/pkg/errors`:
the wrapped error's message is the context followed by the cause. -/
def wrapf (e : GoError) (m : String) : GoError :=
  { msg := m ++ ": " ++ e.msg, notFound := e.notFound }

/-- Model of `scmhelpers.IsScmNotFound` applied to a possibly-nil error:
a nil error is never not-found. -/
def isScmNotFound : Option GoError → Bool
  | none => false
  | some e => e.notFound

/-- The fields of `scm.User` the resolver reads or writes. -/
structure ScmUser where
  login : String
  name : String
  email : String
  link : String
  avatar : String
deriving DecidableEq

/-- The fields of `jenkinsv1.UserDetails` the resolver populates. -/
structure UserDetails where
  login : String
  name : String
  email : String
deriving DecidableEq

/-- The fields of `object.Signature` read by `GitSignatureAsUser`. -/
structure Signature where
  name : String
  email : String
deriving DecidableEq

/-- The user cache, an association list from key to record.  `GetUser`
is lookup; a successful `CreateOrUpdateUser` prepends, which shadows any
older entry for the same key (upsert, as seen through lookup). -/
abbrev Cache := List (String × UserDetails)

/-- Model of the cache's `GetUser`: lookup by key, a miss is `none`. -/
def getUser (c : Cache) (key : String) : Option UserDetails :=
  c.lookup key

/-- The external capabilities the resolver consumes.
`findLogin l` models `r.GitProvider.Users.FindLogin(ctx, l)` as the pair
(returned user or nil, returned error or nil); the middle `*scm.Response`
is never read by the resolver and is omitted.  `createErr u` models the
error result of `r.cache.CreateOrUpdateUser(u)` (`none` = the write
succeeds).  `toValidName` models `naming.ToValidName`, an opaque
deterministic sanitizer owned by `jx-helpers`. -/
structure Caps where
  findLogin : String → Option ScmUser × Option GoError
  createErr : UserDetails → Option GoError
  toValidName : String → String

/-- Everything observable about one `Resolve` call: the returned record
(nil = `none`), the returned error (nil = `none`), the cache state after
the call, the logins queried on the platform, and the records passed to
the cache writer (attempted writes, successful or not). -/
structure ResolveOut where
  result : Option UserDetails
  err : Option GoError
  cache : Cache
  platformCalls : List String
  cacheWrites : List UserDetails
deriving DecidableEq

/-- `GitUserToUser` (resolver.go:144): field-for-field conversion of an
`scm.User` into a `jenkinsv1.UserDetails`. -/
def GitUserToUser (gitUser : ScmUser) : UserDetails :=
  { login := gitUser.login, name := gitUser.name, email := gitUser.email }

/-- `Resolve` (resolver.go:57).  Guard: nil user or empty name returns
(nil, nil).  Cache-first lookup by `user.Name`.  No-login path: build
the record from the input, attempt the cache write, and return the record
even when the write fails (wrapped as "failed to cache User").  Login
path: query the platform; nil user or a not-found error yields (nil, nil);
any other error is wrapped as "failed to find user {login}"; on success
the record's Name is set to the doubly-sanitized key (login, or the
display name with spaces replaced by hyphens and then ASCII-lowercased,
when the returned login is empty), then written to the cache — here a
write failure suppresses the record (wrapped as "failed to create User").
A nil `user` argument models the Go nil pointer. -/
def Resolve (caps : Caps) (cache : Cache) (user : Option ScmUser) : ResolveOut :=
  match user with
  | none => ⟨none, none, cache, [], []⟩
  | some user =>
    if user.name = "" then ⟨none, none, cache, [], []⟩
    else
      match getUser cache user.name with
      | some u => ⟨some u, none, cache, [], []⟩
      | none =>
        if user.login = "" then
          let u := GitUserToUser user
          match caps.createErr u with
          | some e => ⟨some u, some (wrapf e "failed to cache User"), cache, [], [u]⟩
          | none => ⟨some u, none, (u.name, u) :: cache, [], [u]⟩
        else
          match caps.findLogin user.login with
          | (scmUser, err) =>
            match scmUser with
            | none => ⟨none, none, cache, [user.login], []⟩
            | some su =>
              if isScmNotFound err then ⟨none, none, cache, [user.login], []⟩
              else
                match err with
                | some e =>
                  ⟨none, some (wrapf e ("failed to find user " ++ user.login)),
                    cache, [user.login], []⟩
                | none =>
                  let login := su.login
                  let login := if login = "" then (su.name.replace " " "-").toLower else login
                  let id := caps.toValidName login
                  let u := { GitUserToUser su with name := caps.toValidName id }
                  match caps.createErr u with
                  | some e =>
                    ⟨none, some (wrapf e "failed to create User"),
                      cache, [user.login], [u]⟩
                  | none => ⟨some u, none, (u.name, u) :: cache, [user.login], [u]⟩

/-- `GitSignatureAsUser` (resolver.go:25): short-circuits to (nil, nil)
when the signature has neither name nor email, otherwise delegates to
`Resolve` with an `scm.User` carrying only the signature's name and
email (login and the remaining fields are the Go zero value). -/
def GitSignatureAsUser (caps : Caps) (cache : Cache) (signature : Signature) : ResolveOut :=
  if signature.name = "" ∧ signature.email = "" then ⟨none, none, cache, [], []⟩
  else
    Resolve caps cache
      (some { login := "", name := signature.name, email := signature.email,
              link := "", avatar := "" })

/-- The observables of one `GitUserSliceAsUserDetailsSlice` call, in the
same shape as `ResolveOut` but with a list result; `result = none` models
the Go `return nil, err`. -/
structure BatchOut where
  result : Option (List UserDetails)
  err : Option GoError
  cache : Cache
  platformCalls : List String
  cacheWrites : List UserDetails
deriving DecidableEq

/-- `GitUserSliceAsUserDetailsSlice` (resolver.go:38): resolves each user
in order, threading the cache; the first `Resolve` error returns
`(nil, err)` immediately; a nil `Resolve` result is skipped, a non-nil
one is appended. -/
def GitUserSliceAsUserDetailsSlice (caps : Caps) (cache : Cache) :
    List ScmUser → BatchOut
  | [] => ⟨some [], none, cache, [], []⟩
  | user :: rest =>
    let o := Resolve caps cache (some user)
    match o.err with
    | some e => ⟨none, some e, o.cache, o.platformCalls, o.cacheWrites⟩
    | none =>
      let b := GitUserSliceAsUserDetailsSlice caps o.cache rest
      ⟨b.result.map fun l =>
          match o.result with
          | some u => u :: l
          | none => l,
        b.err, b.cache, o.platformCalls ++ b.platformCalls,
        o.cacheWrites ++ b.cacheWrites⟩

/-- Reference model of the batch contract as the specification words it:
resolve each identity via `Resolve` in input order (threading the cache),
skip identities that resolve to nil, and fail fast — the first resolution
error aborts the batch with that error and no partial results. -/
def ResolveBatchSpecModel (caps : Caps) (cache : Cache) :
    List ScmUser → Except GoError (List UserDetails)
  | [] => .ok []
  | user :: rest =>
    let o := Resolve caps cache (some user)
    match o.err with
    | some e => .error e
    | none =>
      match ResolveBatchSpecModel caps o.cache rest with
      | .error e => .error e
      | .ok l =>
        .ok (match o.result with
          | some u => u :: l
          | none => l)

/-- A concrete platform/cache capability for witnesses: "dave" resolves
cleanly, "erin" fails with a transient error while still returning a user
object, "carol" is not found; all cache writes succeed; the sanitizer is
the identity map (deterministic and idempotent, as the spec requires, and
it fixes the already-sanitized key "dave"). -/
def testCaps : Caps where
  findLogin := fun l =>
    if l = "dave" then
      (some { login := "dave", name := "Dave D", email := "dave@x.com",
              link := "", avatar := "" }, none)
    else if l = "erin" then
      (some { login := "erin", name := "Erin E", email := "erin@x.com",
              link := "", avatar := "" },
        some { msg := "boom", notFound := false })
    else if l = "carol" then
      (none, some { msg := "404", notFound := true })
    else (none, none)
  createErr := fun _ => none
  toValidName := fun s => s

/-- Like `testCaps` but every cache write fails with a storage error. -/
def failCaps : Caps :=
  { testCaps with createErr := fun _ => some { msg := "db down", notFound := false } }

/-- A platform capability whose query for any login fails with a
non-not-found error and returns no user object. -/
def downCaps : Caps :=
  { testCaps with findLogin := fun _ => (none, some { msg := "boom", notFound := false }) }

/-- C5: for every identity with a non-empty name, if the cache holds a
record under the key `identity.name`, `Resolve` returns that record with
no error, queries no login on the platform, attempts no cache write, and
leaves the cache unchanged. -/
theorem resolve_cache_hit (caps : Caps) (cache : Cache) (user : ScmUser)
    (R : UserDetails) (hname : user.name ≠ "")
    (hhit : getUser cache user.name = some R) :
    Resolve caps cache (some user) = ⟨some R, none, cache, [], []⟩ := by
  simp only [Resolve, if_neg hname, hhit]

/-- Witness for C5 at a concrete cache holding "alice". -/
theorem resolve_cache_hit_witness :
    Resolve testCaps [("alice", ⟨"", "alice", "a@x.com"⟩)]
        (some { login := "", name := "alice", email := "", link := "", avatar := "" })
      = ⟨some ⟨"", "alice", "a@x.com"⟩, none,
          [("alice", ⟨"", "alice", "a@x.com"⟩)], [], []⟩ :=
  resolve_cache_hit testCaps _ _ _ (by decide) (by decide)

/-- C10: a signature with empty name and non-empty email passes the
short-circuit check of `GitSignatureAsUser` (which requires both fields
empty), yet the call still returns (nil, nil) with no platform query, no
cache write and an unchanged cache, because `Resolve`'s guard rejects any
identity with an empty name. -/
theorem gitSignatureAsUser_empty_name (caps : Caps) (cache : Cache)
    (signature : Signature) (hn : signature.name = "")
    (he : signature.email ≠ "") :
    ¬(signature.name = "" ∧ signature.email = "") ∧
      GitSignatureAsUser caps cache signature = ⟨none, none, cache, [], []⟩ := by
  have hne : ¬(signature.name = "" ∧ signature.email = "") := fun h => he h.2
  refine ⟨hne, ?_⟩
  simp [GitSignatureAsUser, Resolve, hn, he]

/-- Witness for C10 at the signature {name:"", email:"ghost@x.com"}. -/
theorem gitSignatureAsUser_empty_name_witness :
    ¬((Signature.mk "" "ghost@x.com").name = "" ∧
        (Signature.mk "" "ghost@x.com").email = "") ∧
      GitSignatureAsUser testCaps [] (Signature.mk "" "ghost@x.com")
        = ⟨none, none, [], [], []⟩ :=
  gitSignatureAsUser_empty_name testCaps [] _ (by decide) (by decide)

/-- C7: for every identity with empty login, non-empty name and no cache
entry for that name, `Resolve` returns the record
{login:"", name, email} copied verbatim from the input (no sanitization),
hands exactly that record to the cache writer, and — when the write
succeeds — the cache afterwards maps the input name to that record. -/
theorem resolve_no_login_path (caps : Caps) (cache : Cache) (user : ScmUser)
    (hname : user.name ≠ "") (hlogin : user.login = "")
    (hmiss : getUser cache user.name = none) :
    (Resolve caps cache (some user)).result
        = some { login := "", name := user.name, email := user.email } ∧
      (Resolve caps cache (some user)).cacheWrites
        = [{ login := "", name := user.name, email := user.email }] ∧
      (caps.createErr { login := "", name := user.name, email := user.email } = none →
        getUser (Resolve caps cache (some user)).cache user.name
          = some { login := "", name := user.name, email := user.email }) := by
  cases hc : caps.createErr { login := "", name := user.name, email := user.email } with
  | some e => simp [Resolve, hname, hmiss, hlogin, GitUserToUser, hc]
  | none =>
    have hres : Resolve caps cache (some user)
        = ⟨some { login := "", name := user.name, email := user.email }, none,
            (user.name, { login := "", name := user.name, email := user.email }) :: cache,
            [], [{ login := "", name := user.name, email := user.email }]⟩ := by
      simp [Resolve, hname, hmiss, hlogin, GitUserToUser, hc]
    rw [hres]
    simp [getUser, List.lookup]

/-- Witness for C7 at the identity {login:"", name:"bob", email:"bob@x.com"}. -/
theorem resolve_no_login_path_witness :
    (Resolve testCaps [] (some ⟨"", "bob", "bob@x.com", "", ""⟩)).result
        = some ⟨"", "bob", "bob@x.com"⟩ ∧
      (Resolve testCaps [] (some ⟨"", "bob", "bob@x.com", "", ""⟩)).cacheWrites
        = [⟨"", "bob", "bob@x.com"⟩] ∧
      (testCaps.createErr ⟨"", "bob", "bob@x.com"⟩ = none →
        getUser (Resolve testCaps [] (some ⟨"", "bob", "bob@x.com", "", ""⟩)).cache "bob"
          = some ⟨"", "bob", "bob@x.com"⟩) :=
  resolve_no_login_path testCaps [] ⟨"", "bob", "bob@x.com", "", ""⟩
    (by decide) rfl rfl

/-- C8: for every identity with non-empty name not in the cache and with a
non-empty login, if the platform returns no user object or an error
classified as not-found, `Resolve` returns (nil, nil) — not an error —
with no cache write attempted and the cache unchanged. -/
theorem resolve_not_found (caps : Caps) (cache : Cache) (user : ScmUser)
    (hname : user.name ≠ "") (hmiss : getUser cache user.name = none)
    (hlogin : user.login ≠ "")
    (hnf : (caps.findLogin user.login).1 = none ∨
        isScmNotFound (caps.findLogin user.login).2 = true) :
    Resolve caps cache (some user) = ⟨none, none, cache, [user.login], []⟩ := by
  rcases hfl : caps.findLogin user.login with ⟨su, e⟩
  rw [hfl] at hnf
  cases su with
  | none => simp [Resolve, hname, hmiss, hlogin, hfl]
  | some su =>
    rcases hnf with h | h
    · exact absurd h (by simp)
    · simp [Resolve, hname, hmiss, hlogin, hfl, h]

/-- Witness for C8: the platform reports not-found for "carol". -/
theorem resolve_not_found_witness :
    Resolve testCaps [] (some ⟨"carol", "carol", "", "", ""⟩)
      = ⟨none, none, [], ["carol"], []⟩ :=
  resolve_not_found testCaps [] ⟨"carol", "carol", "", "", ""⟩
    (by decide) rfl (by decide) (by decide)

/-- C1, as stated, is false on the code: when the platform query fails
with an error that is not classified as not-found but returns no user
object, `Resolve` returns (nil, nil) — the nil-user check at
resolver.go:79 runs before the error check at resolver.go:82, so the
error is swallowed rather than wrapped and returned. -/
theorem resolve_query_error_counterexample :
    ((downCaps.findLogin "dave").2 = some { msg := "boom", notFound := false } ∧
      isScmNotFound (downCaps.findLogin "dave").2 = false ∧
      getUser [] "dave" = none) ∧
    Resolve downCaps []
        (some { login := "dave", name := "dave", email := "", link := "", avatar := "" })
      = ⟨none, none, [], ["dave"], []⟩ := by
  decide

/-- C1 amended: for every identity with non-empty name not in the cache
and with a non-empty login, if the platform query fails with an error not
classified as not-found AND still returns a user object, `Resolve`
returns that error wrapped as "failed to find user {login}" with no
record, no cache write and the cache unchanged. -/
theorem resolve_query_error_amended (caps : Caps) (cache : Cache)
    (user su : ScmUser) (e : GoError) (hname : user.name ≠ "")
    (hmiss : getUser cache user.name = none) (hlogin : user.login ≠ "")
    (hfl : caps.findLogin user.login = (some su, some e))
    (hnf : e.notFound = false) :
    Resolve caps cache (some user)
      = ⟨none, some (wrapf e ("failed to find user " ++ user.login)),
          cache, [user.login], []⟩ := by
  simp [Resolve, hname, hmiss, hlogin, hfl, isScmNotFound, hnf]

/-- Witness for the amended C1: querying "erin" fails with a transient
error while the platform still returns a user object. -/
theorem resolve_query_error_amended_witness :
    Resolve testCaps [] (some ⟨"erin", "erin", "", "", ""⟩)
      = ⟨none, some ⟨"failed to find user erin: boom", false⟩, [], ["erin"], []⟩ := by
  have h := resolve_query_error_amended testCaps []
    ⟨"erin", "erin", "", "", ""⟩
    ⟨"erin", "Erin E", "erin@x.com", "", ""⟩
    ⟨"boom", false⟩ (by decide) rfl (by decide) (by decide) rfl
  exact h

/-- C3: the two cache-write-failure behaviors are asymmetric.  On the
no-login path a failed write still returns the built record alongside the
error wrapped as "failed to cache User"; on the login path a failed write
returns a nil record with the error wrapped as "failed to create User". -/
theorem resolve_write_failure_asymmetry (caps : Caps) :
    (∀ (cache : Cache) (user : ScmUser) (e : GoError), user.name ≠ "" →
      getUser cache user.name = none → user.login = "" →
      caps.createErr { login := "", name := user.name, email := user.email } = some e →
      (Resolve caps cache (some user)).result
          = some { login := "", name := user.name, email := user.email } ∧
        (Resolve caps cache (some user)).err
          = some (wrapf e "failed to cache User")) ∧
    (∀ (cache : Cache) (user su : ScmUser) (e : GoError), user.name ≠ "" →
      getUser cache user.name = none → user.login ≠ "" →
      caps.findLogin user.login = (some su, none) →
      caps.createErr
          { login := su.login,
            name := caps.toValidName (caps.toValidName
              (if su.login = "" then (su.name.replace " " "-").toLower else su.login)),
            email := su.email } = some e →
      (Resolve caps cache (some user)).result = none ∧
        (Resolve caps cache (some user)).err
          = some (wrapf e "failed to create User")) := by
  constructor
  · intro cache user e hname hmiss hlogin hc
    simp [Resolve, hname, hmiss, hlogin, GitUserToUser, hc]
  · intro cache user su e hname hmiss hlogin hfl hc
    simp [Resolve, hname, hmiss, hlogin, hfl, isScmNotFound, GitUserToUser, hc]

/-- Witness for C3: with a failing store, resolving {name:"bob"} (no
login) yields the record plus an error, while resolving {login:"dave"}
yields a nil record plus an error. -/
theorem resolve_write_failure_asymmetry_witness :
    ((Resolve failCaps [] (some ⟨"", "bob", "bob@x.com", "", ""⟩)).result
        = some ⟨"", "bob", "bob@x.com"⟩ ∧
      (Resolve failCaps [] (some ⟨"", "bob", "bob@x.com", "", ""⟩)).err
        = some ⟨"failed to cache User: db down", false⟩) ∧
    ((Resolve failCaps [] (some ⟨"dave", "dave", "", "", ""⟩)).result = none ∧
      (Resolve failCaps [] (some ⟨"dave", "dave", "", "", ""⟩)).err
        = some ⟨"failed to create User: db down", false⟩) := by
  have h := resolve_write_failure_asymmetry failCaps
  exact ⟨h.1 [] ⟨"", "bob", "bob@x.com", "", ""⟩ ⟨"db down", false⟩
      (by decide) rfl rfl rfl,
    h.2 [] ⟨"dave", "dave", "", "", ""⟩ ⟨"dave", "Dave D", "dave@x.com", "", ""⟩
      ⟨"db down", false⟩ (by decide) rfl (by decide) (by decide) (by decide)⟩

/-- C6: on the login path the record handed to the cache writer carries,
as its Name (the canonical key), the platform user's login when that is
non-empty — otherwise the display name with spaces replaced by hyphens
and then lowercased — passed through the sanitizer twice. -/
theorem resolve_login_key_normalization (caps : Caps) (cache : Cache)
    (user su : ScmUser) (hname : user.name ≠ "")
    (hmiss : getUser cache user.name = none) (hlogin : user.login ≠ "")
    (hfl : caps.findLogin user.login = (some su, none)) :
    (Resolve caps cache (some user)).cacheWrites
      = [{ login := su.login,
           name := caps.toValidName (caps.toValidName
             (if su.login = "" then (su.name.replace " " "-").toLower else su.login)),
           email := su.email }] := by
  cases hc : caps.createErr
      { login := su.login,
        name := caps.toValidName (caps.toValidName
          (if su.login = "" then (su.name.replace " " "-").toLower else su.login)),
        email := su.email } with
  | some e => simp [Resolve, hname, hmiss, hlogin, hfl, isScmNotFound, GitUserToUser, hc]
  | none => simp [Resolve, hname, hmiss, hlogin, hfl, isScmNotFound, GitUserToUser, hc]

/-- Witness for C6: resolving {login:"dave", name:"dee"} writes the
record keyed by the doubly-sanitized "dave". -/
theorem resolve_login_key_normalization_witness :
    (Resolve testCaps [] (some ⟨"dave", "dee", "", "", ""⟩)).cacheWrites
      = [⟨"dave", "dave", "dave@x.com"⟩] := by
  have h := resolve_login_key_normalization testCaps []
    ⟨"dave", "dee", "", "", ""⟩ ⟨"dave", "Dave D", "dave@x.com", "", ""⟩
    (by decide) rfl (by decide) (by decide)
  exact h.trans (by decide)

/-- C9: on a successful login-path resolution, the returned record keeps
the platform's Login and Email but its Name is overwritten with the
doubly-sanitized canonical key, so the platform's display name is not
preserved in the Name field. -/
theorem resolve_login_name_overwritten (caps : Caps) (cache : Cache)
    (user su : ScmUser) (hname : user.name ≠ "")
    (hmiss : getUser cache user.name = none) (hlogin : user.login ≠ "")
    (hfl : caps.findLogin user.login = (some su, none))
    (hok : caps.createErr
        { login := su.login,
          name := caps.toValidName (caps.toValidName
            (if su.login = "" then (su.name.replace " " "-").toLower else su.login)),
          email := su.email } = none) :
    (Resolve caps cache (some user)).result
        = some { login := su.login,
                 name := caps.toValidName (caps.toValidName
                   (if su.login = "" then (su.name.replace " " "-").toLower else su.login)),
                 email := su.email } ∧
      (Resolve caps cache (some user)).err = none := by
  simp [Resolve, hname, hmiss, hlogin, hfl, isScmNotFound, GitUserToUser, hok]

/-- Witness for C9: the platform's display name "Dave D" is replaced by
the sanitized key "dave" in the returned record's Name. -/
theorem resolve_login_name_overwritten_witness :
    ((Resolve testCaps [] (some ⟨"dave", "dee", "", "", ""⟩)).result
        = some ⟨"dave", "dave", "dave@x.com"⟩ ∧
      (Resolve testCaps [] (some ⟨"dave", "dee", "", "", ""⟩)).err = none) ∧
    ("dave" : String) ≠ "Dave D" := by
  have h := resolve_login_name_overwritten testCaps []
    ⟨"dave", "dee", "", "", ""⟩ ⟨"dave", "Dave D", "dave@x.com", "", ""⟩
    (by decide) rfl (by decide) (by decide) (by decide)
  exact ⟨⟨h.1.trans (by decide), h.2⟩, by decide⟩

/-- C2: resolving {login:"dave", name:"dave"} against a cold cache, with
the platform returning {login:"dave", name:"Dave D", email:"dave@x.com"}
and the write succeeding, returns the record keyed by the sanitized form
of "dave" after one platform call, and the cache then contains it under
that key; a second `Resolve` with the same input returns the cached
record with no further platform call and no write, so both resolutions
yield the same record and hence the same canonical key. -/
theorem resolve_dave_roundtrip (caps : Caps) (cache : Cache)
    (hmiss : getUser cache "dave" = none)
    (hfl : caps.findLogin "dave"
      = (some ⟨"dave", "Dave D", "dave@x.com", "", ""⟩, none))
    (hsan : caps.toValidName "dave" = "dave")
    (hok : caps.createErr ⟨"dave", "dave", "dave@x.com"⟩ = none) :
    Resolve caps cache (some ⟨"dave", "dave", "", "", ""⟩)
        = ⟨some ⟨"dave", "dave", "dave@x.com"⟩, none,
            ("dave", ⟨"dave", "dave", "dave@x.com"⟩) :: cache, ["dave"], [⟨"dave", "dave", "dave@x.com"⟩]⟩ ∧
      getUser (("dave", (⟨"dave", "dave", "dave@x.com"⟩ : UserDetails)) :: cache) "dave"
        = some ⟨"dave", "dave", "dave@x.com"⟩ ∧
      Resolve caps (("dave", ⟨"dave", "dave", "dave@x.com"⟩) :: cache)
          (some ⟨"dave", "dave", "", "", ""⟩)
        = ⟨some ⟨"dave", "dave", "dave@x.com"⟩, none,
            ("dave", ⟨"dave", "dave", "dave@x.com"⟩) :: cache, [], []⟩ := by
  refine ⟨?_, ?_, ?_⟩
  · simp [Resolve, hmiss, hfl, isScmNotFound, GitUserToUser, hsan, hok]
  · simp [getUser, List.lookup]
  · simp [Resolve, getUser, List.lookup]

/-- Witness for C2 at the concrete capability `testCaps`. -/
theorem resolve_dave_roundtrip_witness :
    Resolve testCaps [] (some ⟨"dave", "dave", "", "", ""⟩)
        = ⟨some ⟨"dave", "dave", "dave@x.com"⟩, none,
            [("dave", ⟨"dave", "dave", "dave@x.com"⟩)], ["dave"], [⟨"dave", "dave", "dave@x.com"⟩]⟩ ∧
      getUser [("dave", (⟨"dave", "dave", "dave@x.com"⟩ : UserDetails))] "dave"
        = some ⟨"dave", "dave", "dave@x.com"⟩ ∧
      Resolve testCaps [("dave", ⟨"dave", "dave", "dave@x.com"⟩)]
          (some ⟨"dave", "dave", "", "", ""⟩)
        = ⟨some ⟨"dave", "dave", "dave@x.com"⟩, none,
            [("dave", ⟨"dave", "dave", "dave@x.com"⟩)], [], []⟩ :=
  resolve_dave_roundtrip testCaps [] rfl (by decide) (by decide) (by decide)

/-- C4: the batch resolver agrees, in returned result and error, with the
spec's contract `ResolveBatchSpecModel` — resolve in input order, skip
nil resolutions, and fail fast on the first error, returning that error
with a nil result and discarding all partial results. -/
theorem batch_matches_spec_model (caps : Caps) (cache : Cache)
    (users : List ScmUser) :
    ((GitUserSliceAsUserDetailsSlice caps cache users).result,
        (GitUserSliceAsUserDetailsSlice caps cache users).err)
      = (match ResolveBatchSpecModel caps cache users with
          | .ok l => (some l, none)
          | .error e => (none, some e)) := by
  induction users generalizing cache with
  | nil => rfl
  | cons user rest ih =>
    simp only [GitUserSliceAsUserDetailsSlice, ResolveBatchSpecModel]
    cases he : (Resolve caps cache (some user)).err with
    | some e => rfl
    | none =>
      have h := ih (Resolve caps cache (some user)).cache
      cases hs : ResolveBatchSpecModel caps (Resolve caps cache (some user)).cache rest with
      | error e =>
        rw [hs] at h
        rw [Prod.mk.injEq] at h
        simp [h.1, h.2]
      | ok l =>
        rw [hs] at h
        rw [Prod.mk.injEq] at h
        simp [h.1, h.2]

end Users
